import Mathlib

/-!
Shallow embedding of the validation core of `validator.py`
(Smart-Assurance-ValidatorX), together with theorems settling the
claims of the specification against it.

Python strings are modelled as `List Char`.  `str.upper()` / `str.lower()`
are modelled character-wise over ASCII and the Latin-1 letters, which is
exhaustive for every alphabet the validator manipulates (French letters,
identity codes, keywords).  The external collaborators declared in the
spec (`validate_date_format`, `validate_iban`) and the calendar parsing
done by the standard `datetime` library inside `_parse_date_any` are taken
as parameters: a date is a day number (`Int`), ordered like calendar dates.
-/

namespace SAV

/-- Python `str` is modelled as a list of characters. -/
abbrev Str := List Char

/-- Python whitespace class `\s` restricted to its ASCII members. -/
def isWsChar (c : Char) : Bool :=
  c = ' ' || c = '\t' || c = '\n' || c = '\r' || c = Char.ofNat 11 || c = Char.ofNat 12

def isAsciiDigit (c : Char) : Bool := '0' ≤ c && c ≤ '9'

def isUpperAlpha (c : Char) : Bool := 'A' ≤ c && c ≤ 'Z'

def isLowerAlpha (c : Char) : Bool := 'a' ≤ c && c ≤ 'z'

/-- Latin-1 letters `À-Ö`, `Ø-ö`, `ø-ÿ` (the accented range the source's
name-cleaning regex keeps; `×` and `÷` excluded). -/
def isLatin1Letter (c : Char) : Bool :=
  (0xC0 ≤ c.toNat && c.toNat ≤ 0xD6) ||
  (0xD8 ≤ c.toNat && c.toNat ≤ 0xF6) ||
  (0xF8 ≤ c.toNat && c.toNat ≤ 0xFF)

/-- Character-wise `str.upper()` over ASCII and Latin-1 letters
(`à-þ` except `÷` map 32 code points down, matching Python on this range). -/
def charUpper (c : Char) : Char :=
  if isLowerAlpha c then Char.ofNat (c.toNat - 32)
  else if 0xE0 ≤ c.toNat && c.toNat ≤ 0xFE && c.toNat ≠ 0xF7 then Char.ofNat (c.toNat - 32)
  else c

/-- Character-wise `str.lower()` over ASCII and Latin-1 letters. -/
def charLower (c : Char) : Char :=
  if isUpperAlpha c then Char.ofNat (c.toNat + 32)
  else if 0xC0 ≤ c.toNat && c.toNat ≤ 0xDE && c.toNat ≠ 0xD7 then Char.ofNat (c.toNat + 32)
  else c

def pyUpper (s : Str) : Str := s.map charUpper

def pyLower (s : Str) : Str := s.map charLower

/-- Python word character `\w` (letters, digits, underscore), restricted to
ASCII plus the Latin-1 letters; used for the regex `\b` boundary. -/
def isWordChar (c : Char) : Bool :=
  isUpperAlpha c || isLowerAlpha c || isAsciiDigit c || c = '_' || isLatin1Letter c

/-- `str.strip()`: drop whitespace from both ends. -/
def pyStrip (s : Str) : Str :=
  ((s.dropWhile isWsChar).reverse.dropWhile isWsChar).reverse

/-- `str.strip(chars)`: drop the characters of `cs` from both ends. -/
def pyStripChars (cs : Str) (s : Str) : Str :=
  ((s.dropWhile (cs.contains ·)).reverse.dropWhile (cs.contains ·)).reverse

/-- `re.sub(p+, r, ·)`: replace every maximal run of characters satisfying
`p` by the single character `r`.  `inRun` records whether the previous
character was part of a run. -/
def collapseAux (p : Char → Bool) (r : Char) : Bool → Str → Str
  | _, [] => []
  | inRun, c :: cs =>
    if p c then
      if inRun then collapseAux p r true cs else r :: collapseAux p r true cs
    else c :: collapseAux p r false cs

def collapseRuns (p : Char → Bool) (r : Char) (s : Str) : Str :=
  collapseAux p r false s

/-- `_norm_spaces`: `re.sub(r"\s+", " ", (s or "").strip())`. -/
def normSpaces (s : Str) : Str := collapseRuns isWsChar ' ' (pyStrip s)

/-- The character class kept by `_clean_name`'s second substitution:
`[A-Za-zÀ-ÖØ-öø-ÿ\s']` — letters, whitespace, apostrophe.  The hyphen is
deliberately **not** in this class (the source removed it). -/
def isNameKeep (c : Char) : Bool :=
  isUpperAlpha c || isLowerAlpha c || isLatin1Letter c || isWsChar c || c = Char.ofNat 39

/-- `_clean_name`: strip; replace digit runs by a space; replace every
character outside the keep class by a space; collapse whitespace runs;
strip. -/
def cleanName (s : Str) : Str :=
  let s1 := pyStrip s
  let s2 := collapseRuns isAsciiDigit ' ' s1
  let s3 := s2.map (fun c => if isNameKeep c then c else ' ')
  pyStrip (collapseRuns isWsChar ' ' s3)

/-- `_normalize_cne`: uppercase then keep only `[A-Z0-9]`. -/
def normalizeCne (s : Str) : Str :=
  (pyUpper s).filter (fun c => isUpperAlpha c || isAsciiDigit c)

/-- Full match of the regex `[A-Z]{1,2}\d{6}`: one or two capital letters
followed by exactly six digits. -/
def matchesCnePattern : Str → Bool
  | a :: b :: rest =>
    if isAsciiDigit b then
      isUpperAlpha a && rest.length == 5 && rest.all isAsciiDigit
    else
      isUpperAlpha a && isUpperAlpha b && rest.length == 6 && rest.all isAsciiDigit
  | _ => false

/-- `_is_cne_strict`: the normalised value full-matches `[A-Z]{1,2}\d{6}`. -/
def isCneStrict (s : Str) : Bool := matchesCnePattern (normalizeCne s)

/-- Python `needle in hay` (substring containment). -/
def containsSub (needle hay : Str) : Bool :=
  hay.tails.any (fun t => needle.isPrefixOf t)

/-- Python `hay.find(needle)`: index of the first occurrence, `none` when
absent. -/
def findSubIdx (needle : Str) : Str → Option Nat
  | [] => if needle.isEmpty then some 0 else none
  | c :: cs =>
    if needle.isPrefixOf (c :: cs) then some 0
    else (findSubIdx needle cs).map (· + 1)

/-- Numeric value of a digit run (`int` applied to a `\d+` match). -/
def digitsVal (s : Str) : Nat :=
  s.foldl (fun acc c => 10 * acc + (c.toNat - '0'.toNat)) 0

/-- One pass of `re.findall(r"(\d+)\s*(?:u1|u2|...)", s)` summed: every
maximal digit run counts when, after optional whitespace, the text
continues with one of the unit words.  `prevDigit` tells whether the
previous character was a digit, so a run is counted exactly once, at its
start.  The alternations of the source's patterns all begin with one of
the given prefixes and none contains a digit, so this maximal-munch scan
computes the same sum as the regex. -/
def sumUnitsAux (units : List Str) : Bool → Str → Nat
  | _, [] => 0
  | prevDigit, c :: cs =>
    if isAsciiDigit c && !prevDigit then
      let run := c :: cs.takeWhile isAsciiDigit
      let afterWs := (cs.dropWhile isAsciiDigit).dropWhile isWsChar
      (if units.any (fun u => u.isPrefixOf afterWs) then digitsVal run else 0)
        + sumUnitsAux units true cs
    else sumUnitsAux units (isAsciiDigit c) cs

def sumUnits (units : List Str) (s : Str) : Nat := sumUnitsAux units false s

/-- `_parse_duration_to_timedelta`, as a day count: sums year/month/day
quantities written in French or English, with 365 days per year and 30 per
month; `none` when no unit occurs (or the string is empty). -/
def parseDurationDays (s : Str) : Option Int :=
  let t := pyStrip (pyLower s)
  if t.isEmpty then none
  else
    let years := sumUnits ["an".data, "année".data, "annee".data, "year".data] t
    let months := sumUnits ["mois".data, "month".data] t
    let days := sumUnits ["jour".data, "day".data] t
    if years = 0 && months = 0 && days = 0 then none
    else some (years * 365 + months * 30 + days)

/-- The regex `\b` word-boundary condition before a match, given the
preceding character (`none` at the start of the text). -/
def boundaryBefore : Option Char → Bool
  | none => true
  | some c => !isWordChar c

/-- The `\b` condition after the six digits: end of text or a non-word
character. -/
def boundaryAfter : Str → Bool
  | [] => true
  | c :: _ => !isWordChar c

/-- Attempt to match `[A-Z]{2}\s*[-]?\s*\d{6}\b` at the head of `l`, the
`\b` on the left being checked against `prev`.  The quantifiers of this
pattern are deterministic (whitespace, the hyphen and digits are disjoint
classes), so maximal munch needs no backtracking.  Returns the matched
characters. -/
def cneMatchHere (prev : Option Char) (l : Str) : Option Str :=
  if boundaryBefore prev then
    match l with
    | a :: b :: rest =>
      if isUpperAlpha a && isUpperAlpha b then
        let w1 := rest.takeWhile isWsChar
        let r1 := rest.dropWhile isWsChar
        let dash : Str := if r1.head? = some '-' then ['-'] else []
        let r2 := if r1.head? = some '-' then r1.tail else r1
        let w2 := r2.takeWhile isWsChar
        let r3 := r2.dropWhile isWsChar
        let ds := r3.take 6
        if ds.length == 6 && ds.all isAsciiDigit && boundaryAfter (r3.drop 6) then
          some (a :: b :: (w1 ++ dash ++ w2 ++ ds))
        else none
      else none
    | _ => none
  else none

/-- All matches of the loose code pattern with their start positions.
Two matches of this pattern can never overlap (a match starting inside
another would need a `\b` between two word characters), so trying every
position yields exactly `re.finditer`'s non-overlapping match list. -/
def cneScan : Option Char → Nat → Str → List (Str × Nat)
  | _, _, [] => []
  | prev, pos, c :: cs =>
    match cneMatchHere prev (c :: cs) with
    | some m => (m, pos) :: cneScan (some c) (pos + 1) cs
    | none => cneScan (some c) (pos + 1) cs

/-- The strict matches of `_extract_cne_by_context`: each raw match
normalised, kept with its position when strict. -/
def strictMatches (text : Str) : List (Str × Nat) :=
  (cneScan none 0 (pyUpper text)).filterMap (fun mp =>
    let c := normalizeCne mp.1
    if isCneStrict c then some (c, mp.2) else none)

/-- `left = t[max(0, pos - 120):pos]`: the window of (at most) 120
characters preceding position `pos`. -/
def leftWindow (t : Str) (pos : Nat) : Str :=
  (t.drop (pos - 120)).take (pos - (pos - 120))

/-- Does any keyword (uppercased) occur in the 120-character window before
`pos` of the uppercased text `t`? -/
def keywordNear (t : Str) (keywords : List Str) (pos : Nat) : Bool :=
  keywords.any (fun k => containsSub (pyUpper k) (leftWindow t pos))

/-- `_extract_cne_by_context`: first strict code whose left window holds a
keyword; else the first strict code; empty when none. -/
def extractCneByContext (text : Str) (keywords : List Str) : Str :=
  let t := pyUpper text
  let raw := cneScan none 0 t
  if raw.isEmpty then []
  else
    match strictMatches text with
    | [] => []
    | (c0, _) :: _ =>
      if keywords.isEmpty then c0
      else
        match (strictMatches text).find? (fun cp => keywordNear t keywords cp.2) with
        | some cp => cp.1
        | none => c0

/-! ## The validation engine (`_validate_extracted_data`)

Python dictionaries of string fields are modelled as insertion-ordered
association lists.  The external pure collaborators of the spec —
`validate_date_format`, `validate_iban` — and the calendar parsing of
`_parse_date_any` (which delegates to the `datetime` library) are
parameters of the engine; a parsed date is an `Int` day number. -/

/-- Lookup in a field map (`d.get(k)`). -/
def mapGet? (m : List (Str × Str)) (k : Str) : Option Str :=
  (m.find? (fun p => p.1 == k)).map (fun p => p.2)

/-- `d.get(k, "")`. -/
def mapGetD (m : List (Str × Str)) (k : Str) : Str := (mapGet? m k).getD []

/-- `d[k] = v`: replace the existing binding in place, or append. -/
def mapSet : List (Str × Str) → Str → Str → List (Str × Str)
  | [], k, v => [(k, v)]
  | p :: rest, k, v => if p.1 == k then (k, v) :: rest else p :: mapSet rest k v

/-- The tech report (`analyze_technical_integrity` output shape); a missing
report behaves as this structure with all fields falsy. -/
structure TechReport where
  suspicious_metadata : Bool := false
  editor_detected : Str := []
  font_count : Nat := 0
  potential_tampering : Bool := false
deriving DecidableEq

/-- The incoming `format_validation` sub-dictionary: each flag may be
absent (`setdefault` then fills `true`). -/
structure FVFlagsIn where
  dates : Option Bool := none
  rib : Option Bool := none
  iban : Option Bool := none
  cne : Option Bool := none
deriving DecidableEq

/-- The upstream-proposed JSON result, defensively defaulted field by
field as the source does. -/
structure GroqResult where
  decision : Option Str := none
  score : Option Int := none
  country : Option Str := none
  doc_type : Option Str := none
  fraud_suspected : Option Bool := none
  fraud_signals : List Str := []
  extracted_data : List (Str × Str) := []
  format_validation : FVFlagsIn := {}
  reason : Option Str := none
deriving DecidableEq

/-- The produced validation result. -/
structure VResult where
  decision : Str
  score : Int
  country : Str
  doc_type : Option Str
  fraud_suspected : Bool
  fraud_signals : List Str
  extracted_data : List (Str × Str)
  fv_dates : Bool
  fv_rib : Bool
  fv_iban : Bool
  fv_cne : Bool
  reason : Option Str
  is_valid : Bool
deriving DecidableEq

/-- Mutable state threaded through the per-type rules: the extracted
fields, the four format flags, and the accumulated `format_errors`. -/
structure VState where
  extracted : List (Str × Str)
  fvDates : Bool
  fvRib : Bool
  fvIban : Bool
  fvCne : Bool
  errors : List Str
deriving DecidableEq

/-- `(groq_result.get("doc_type") or "UNKNOWN").strip().upper()`. -/
def docTypeOf (g : GroqResult) : Str :=
  let raw := match g.doc_type with
    | none => "UNKNOWN".data
    | some s => if s.isEmpty then ("UNKNOWN".data) else s
  pyUpper (pyStrip raw)

/-- One step of the name-cleaning loop: when the key is present, replace
its value by `_clean_name` of it. -/
def cleanStep (m : List (Str × Str)) (k : Str) : List (Str × Str) :=
  match mapGet? m k with
  | some v => mapSet m k (cleanName v)
  | none => m

/-- The name-cleaning loop over the five name keys. -/
def cleanNameFields (m : List (Str × Str)) : List (Str × Str) :=
  ["cni_full_name".data, "bank_account_holder".data, "deceased_full_name".data,
   "insured_full_name".data, "beneficiary_full_name".data].foldl cleanStep m

/-- One step of the code-normalising loop: when the value is present and
non-empty, replace it by `_normalize_cne`. -/
def cneStep (m : List (Str × Str)) (k : Str) : List (Str × Str) :=
  match mapGet? m k with
  | some v => if v.isEmpty then m else mapSet m k (normalizeCne v)
  | none => m

/-- The code-normalising loop over the four identity-code keys. -/
def normCneFields (m : List (Str × Str)) : List (Str × Str) :=
  ["cni_cne".data, "deceased_cne".data, "insured_cne".data, "beneficiary_cne".data].foldl
    cneStep m

/-- The initial rule-engine state: cleaned and normalised fields, flags
defaulted to `true` where the upstream result left them absent, no
errors yet. -/
def initState (g : GroqResult) : VState :=
  { extracted := normCneFields (cleanNameFields g.extracted_data)
    fvDates := g.format_validation.dates.getD true
    fvRib := g.format_validation.rib.getD true
    fvIban := g.format_validation.iban.getD true
    fvCne := g.format_validation.cne.getD true
    errors := [] }

/-- The fraud signals derived from the tech report: a tamper flag emits
the suspicious-editor signal, a font count above 8 emits the font-variety
signal. -/
def techFraudSignals (tech : TechReport) : List Str :=
  (if tech.potential_tampering then
    ["Suspicious editor: ".data ++ tech.editor_detected] else []) ++
  (if tech.font_count > 8 then
    ["High font variety: ".data ++ (toString tech.font_count).data ++ " fonts".data]
   else [])

/-- `_check_date_field`: normalise spaces; empty means absent; pre-clean
dots, hyphens and whitespace runs into slashes; run the external format
validator, recording an error and clearing the dates flag on failure;
store the unified string; parse it, again recording an error on failure.
Returns the parsed date alongside the updated state. -/
def checkDateField (parseDateAny : Str → Option Int)
    (validateDateFormat : Str → Bool × Str)
    (key label : Str) (st : VState) : Option Int × VState :=
  let v := normSpaces (mapGetD st.extracted key)
  if v.isEmpty then (none, st)
  else
    let vClean := collapseRuns isWsChar '/'
      (v.map (fun c => if c = '.' || c = '-' then '/' else c))
    let res := validateDateFormat vClean
    if !res.1 then
      (none, { st with fvDates := false,
                       errors := st.errors ++ [label ++ " invalide: ".data ++ v] })
    else
      let st := { st with extracted := mapSet st.extracted key res.2 }
      match parseDateAny res.2 with
      | none =>
        (none, { st with fvDates := false,
                         errors := st.errors ++ [label ++ " illisible: ".data ++ v] })
      | some d => (some d, st)

/-- `_check_cne_field`: when the value is absent, try the contextual
fallback over the raw OCR text; when still absent, record a missing-field
error; when present but not strict, record an invalid-format error; in
both failure cases clear the identity-code flag. -/
def checkCneField (rawText : Str) (key label : Str) (keywords : List Str)
    (st : VState) : VState :=
  let v0 := mapGetD st.extracted key
  let fb := if v0.isEmpty then extractCneByContext rawText keywords else []
  let st := if v0.isEmpty && !fb.isEmpty
            then { st with extracted := mapSet st.extracted key fb } else st
  let v := if v0.isEmpty then fb else v0
  if v.isEmpty then
    { st with fvCne := false, errors := st.errors ++ [label ++ " manquant.".data] }
  else if !isCneStrict v then
    { st with fvCne := false,
              errors := st.errors ++
                [label ++ " invalide (2 lettres + 6 chiffres): ".data ++ v] }
  else st

/-- `"; ".join(xs)`-style separator join. -/
def joinSep (sep : Str) : List Str → Str
  | [] => []
  | [x] => x
  | x :: y :: xs => x ++ sep ++ joinSep sep (y :: xs)

/-- The first three statements of the ID branch: identity code with
contextual fallback, birth date, then the expiry-date check whose parsed
result feeds the temporal rule. -/
def idExpiryCheck (pd : Str → Option Int) (vdf : Str → Bool × Str)
    (raw : Str) (st : VState) : Option Int × VState :=
  checkDateField pd vdf ("cni_expiry_date".data) ("Date expiration (CNI)".data)
    ((checkDateField pd vdf ("cni_birth_date".data) ("Date naissance (CNI)".data)
      (checkCneField raw ("cni_cne".data) ("CNE (CNI)".data)
        [("CNIE".data), ("CIN".data), ("NUM".data), ("N°".data)] st)).2)

/-- The ID branch: the project rule records an error when the parsed
expiry is on or before today (expiry must be strictly after today). -/
def idRules (today : Int) (pd : Str → Option Int)
    (vdf : Str → Bool × Str) (raw : Str) (st : VState) : VState :=
  let r := idExpiryCheck pd vdf raw st
  match r.1 with
  | some e =>
    if e ≤ today then
      { r.2 with errors := r.2.errors ++
          [("CNI invalide selon règle projet: date expiration doit être > date du jour.".data)] }
    else r.2
  | none => r.2

/-- Write of the assembled RIB (`ex["bank_rib_code"] = full_rib`): made
through the upstream dictionary, it reaches the output only when that
dictionary was non-empty (`aliased`). -/
def bankWriteRib (aliased : Bool) (fullRib : Str) (st : VState) : VState :=
  if aliased then
    { st with extracted := mapSet st.extracted ("bank_rib_code".data) fullRib }
  else st

/-- The holder check: a missing account holder is a format error. -/
def bankHolderCheck (holder : Str) (st : VState) : VState :=
  if holder.isEmpty then
    { st with errors := st.errors ++
        [("Titulaire du compte (bank_account_holder) manquant.".data)] }
  else st

/-- The IBAN part: re-uppercase and de-space, trim to the 28 characters
from the country marker (or the last 28 when the marker is absent and the
string is longer), log the cleaning when the length changed, store the
cleaned IBAN (through the upstream dictionary), validate it externally,
record the flag and a failure message. -/
def bankIbanPart (validateIban : Str → Bool × Str) (aliased : Bool)
    (iban : Str) (st : VState) : VState :=
  if iban.isEmpty then st
  else
    let iban1 := (pyUpper iban).filter (fun c => !(c = ' '))
    let originalForLog := iban1
    let iban2 := match findSubIdx ("MA".data) iban1 with
      | some i => (iban1.drop i).take 28
      | none => if iban1.length > 28 then iban1.drop (iban1.length - 28) else iban1
    let st := if originalForLog.length ≠ iban2.length then
        { st with errors := st.errors ++
            [("IBAN nettoyé. Original: ".data) ++ originalForLog] }
      else st
    let st := if aliased then
        { st with extracted := mapSet st.extracted ("bank_iban".data) iban2 }
      else st
    let res := validateIban iban2
    let st := { st with fvIban := res.1 }
    if res.1 then st else { st with errors := st.errors ++ [res.2] }

/-- The BANK branch.  `aliased` records whether the upstream
`extracted_data` dictionary was non-empty: the source binds `extracted`
to a fresh empty dictionary when the incoming one is falsy, so the
branch's writes of `bank_rib_code` and `bank_iban` (made through the
original dictionary) only reach the output when the incoming dictionary
was non-empty.  All five fields are read before any write, as in the
source.  The assembled RIB's length is compared to 24 by a statement
whose body is `pass`: no error, no flag change and no RIB validation
follow from it. -/
def bankRules (validateIban : Str → Bool × Str) (aliased : Bool)
    (st : VState) : VState :=
  let holder := normSpaces (mapGetD st.extracted ("bank_account_holder".data))
  let iban := (pyUpper (normSpaces (mapGetD st.extracted ("bank_iban".data)))).filter
    (fun c => !(c = ' '))
  let cb := normalizeCne (mapGetD st.extracted ("bank_code_banque".data))
  let cv := normalizeCne (mapGetD st.extracted ("bank_code_ville".data))
  let nc := normalizeCne (mapGetD st.extracted ("bank_numero_compte".data))
  let kr := normalizeCne (mapGetD st.extracted ("bank_cle_rib".data))
  let fullRib := (cb ++ cv ++ nc ++ kr).filter isAsciiDigit
  bankIbanPart validateIban aliased iban
    (bankHolderCheck holder (bankWriteRib aliased fullRib st))

/-- The DEATH branch: unify the death-date format when the external
validator accepts it, then record an error when the parsed death date is
strictly after today.  (The day number is rendered with `toString` where
the source renders the date value.)  Nothing else is checked on this
branch. -/
def deathRules (today : Int) (parseDateAny : Str → Option Int)
    (validateDateFormat : Str → Bool × Str) (st : VState) : VState :=
  let rawD := normSpaces (mapGetD st.extracted ("death_date".data))
  let res := validateDateFormat rawD
  let st := if res.1 then
      { st with extracted := mapSet st.extracted ("death_date".data) res.2 }
    else st
  match parseDateAny (mapGetD st.extracted ("death_date".data)) with
  | some d =>
    if d > today then
      { st with errors := st.errors ++
          [("Date décès dans le futur: ".data) ++ (toString d).data] }
    else st
  | none => st

/-- The LIFE branch state after both person records were processed. -/
def lifePre (pd : Str → Option Int) (vdf : Str → Bool × Str)
    (raw : Str) (st : VState) : VState :=
  (checkDateField pd vdf ("beneficiary_birth_date".data) ("Naissance (bénéficiaire)".data)
    ((checkDateField pd vdf ("insured_birth_date".data) ("Naissance (assuré)".data)
      (checkCneField raw ("beneficiary_cne".data) ("CNE (bénéficiaire)".data)
        [("BENEFICIAIRE".data), ("AYANT".data), ("DROIT".data), ("CIN".data), ("CNIE".data)]
        (checkCneField raw ("insured_cne".data) ("CNE (assuré)".data)
          [("ASSURE".data), ("ADHERENT".data), ("SOUSCRIPTEUR".data), ("CIN".data), ("CNIE".data)]
          st))).2)).2

/-- The LIFE branch's effective-date check. -/
def lifeEffCheck (pd : Str → Option Int) (vdf : Str → Bool × Str)
    (raw : Str) (st : VState) : Option Int × VState :=
  checkDateField pd vdf ("contract_effective_date".data) ("Date effectuation".data)
    (lifePre pd vdf raw st)

/-- The LIFE branch's end-date check, run on the state left by the
effective-date check. -/
def lifeEndCheck (pd : Str → Option Int) (vdf : Str → Bool × Str)
    (raw : Str) (st : VState) : Option Int × VState :=
  checkDateField pd vdf ("contract_end_date".data) ("Date fin contrat".data)
    (lifeEffCheck pd vdf raw st).2

/-- The LIFE_CONTRACT branch: both person records, the effective date,
then the end date; an end date on or after today is an error, otherwise
the effective date plus the parsed duration must be strictly after today
(a missing duration is itself an error when no end date exists). -/
def lifeRules (today : Int) (pd : Str → Option Int)
    (vdf : Str → Bool × Str) (raw : Str) (st : VState) : VState :=
  let effR := lifeEffCheck pd vdf raw st
  let endR := lifeEndCheck pd vdf raw st
  let st1 := endR.2
  let duration := normSpaces (mapGetD st1.extracted ("contract_duration".data))
  match endR.1 with
  | some e =>
    if e ≥ today then
      { st1 with errors := st1.errors ++
          [("Contrat invalide selon règle projet: date fin doit être < date du jour.".data)] }
    else st1
  | none =>
    match effR.1 with
    | some f =>
      match parseDurationDays duration with
      | none =>
        { st1 with errors := st1.errors ++
            [("Durée manquante/illisible (si pas de date fin).".data)] }
      | some td =>
        if f + td ≤ today then
          { st1 with errors := st1.errors ++
              [("Contrat invalide selon règle projet: date effet + durée doit être < date du jour.".data)] }
        else st1
    | none => st1

/-- Dispatch on the normalised document type; any other value runs no
branch. -/
def runTypeRules (today : Int) (parseDateAny : Str → Option Int)
    (validateDateFormat : Str → Bool × Str) (validateIban : Str → Bool × Str)
    (rawText : Str) (dt : Str) (aliased : Bool) (st : VState) : VState :=
  if dt = ("ID".data) then idRules today parseDateAny validateDateFormat rawText st
  else if dt = ("BANK".data) then bankRules validateIban aliased st
  else if dt = ("DEATH".data) then deathRules today parseDateAny validateDateFormat st
  else if dt = ("LIFE_CONTRACT".data) then
    lifeRules today parseDateAny validateDateFormat rawText st
  else st

/-- The rule-engine state after the per-type rules ran on the prepared
input. -/
def finalState (today : Int) (parseDateAny : Str → Option Int)
    (validateDateFormat : Str → Bool × Str) (validateIban : Str → Bool × Str)
    (g : GroqResult) (rawText : Str) : VState :=
  runTypeRules today parseDateAny validateDateFormat validateIban rawText
    (docTypeOf g) (!g.extracted_data.isEmpty) (initState g)

/-- The accumulated `format_errors`. -/
def validationErrors (today : Int) (parseDateAny : Str → Option Int)
    (validateDateFormat : Str → Bool × Str) (validateIban : Str → Bool × Str)
    (g : GroqResult) (rawText : Str) : List Str :=
  (finalState today parseDateAny validateDateFormat validateIban g rawText).errors

/-- `int(groq_result.get("score", 60) or 60)`: 60 when the score is
absent, null or zero (Python truthiness), the given integer otherwise. -/
def baseScoreOf : Option Int → Int
  | none => 60
  | some n => if n = 0 then 60 else n

/-- `_validate_extracted_data`: run the rules, merge the tech-report
fraud signals, compute the penalty and the final decision.  The Python
`list(set(...))` union of signals is modelled as an order-preserving
deduplication (the set's iteration order is unspecified). -/
def validateExtractedData (today : Int) (parseDateAny : Str → Option Int)
    (validateDateFormat : Str → Bool × Str) (validateIban : Str → Bool × Str)
    (g : GroqResult) (tech : TechReport) (rawText : Str) : VResult :=
  let st := finalState today parseDateAny validateDateFormat validateIban g rawText
  let sigs := techFraudSignals tech
  let penalty : Int := 6 * st.errors.length + 10 * sigs.length
  let finalScore := max 0 (baseScoreOf g.score - penalty)
  let fraudSuspected := !sigs.isEmpty
  let decision :=
    if tech.potential_tampering then ("REVIEW".data)
    else if 85 ≤ finalScore ∧ fraudSuspected = false ∧ st.errors = [] then ("ACCEPT".data)
    else ("REVIEW".data)
  let reason :=
    if st.errors.isEmpty then g.reason
    else some (pyStripChars (" |".data)
      (pyStrip (g.reason.getD []) ++ (" | ".data) ++ ("À vérifier: ".data) ++
        joinSep ("; ".data) st.errors))
  { decision
    score := finalScore
    country := g.country.getD ("MAROC".data)
    doc_type := g.doc_type
    fraud_suspected := fraudSuspected
    fraud_signals := (g.fraud_signals ++ sigs).dedup
    extracted_data := st.extracted
    fv_dates := st.fvDates
    fv_rib := st.fvRib
    fv_iban := st.fvIban
    fv_cne := st.fvCne
    reason
    is_valid := decision = ("ACCEPT".data) }

/-- The fixed result built by `validate_with_groq`'s exception handler. -/
structure GroqErrorResult where
  decision : Str
  is_valid : Bool
  score : Int
  country : Str
  doc_type : Str
  fraud_suspected : Bool
  fraud_signals : List Str
  extracted_data : List (Str × Str)
  format_validation : List (Str × Bool)
  reason : Str
deriving DecidableEq

def groqErrorResult (forcedDocType : Str) (errMsg : Str) : GroqErrorResult :=
  { decision := ("REVIEW".data)
    is_valid := false
    score := 0
    country := ("MAROC".data)
    doc_type := forcedDocType
    fraud_suspected := false
    fraud_signals := []
    extracted_data := []
    format_validation := []
    reason := ("Erreur API/système : ".data) ++ errMsg }

/-- `validate_with_groq`'s normalisation of the caller-supplied document
type. -/
def normalizeForcedDocType (s : Str) : Str :=
  let u := pyUpper (pyStrip s)
  if u = ("ID".data) ∨ u = ("BANK".data) ∨ u = ("DEATH".data) ∨ u = ("LIFE_CONTRACT".data)
  then u else ("UNKNOWN".data)

/-! ## Concrete stand-ins for the external collaborators, used by the
closed theorems below.  `fixedVDF` accepts every date string unchanged;
`fixedParse` knows a fixed table of day numbers; `fixedIban` accepts
everything. -/

def fixedParse : Str → Option Int := fun s =>
  if s = ("01/01/2020".data) then some 100
  else if s = ("01/01/2030".data) then some 900
  else none

def fixedVDF : Str → Bool × Str := fun s => (true, s)

def fixedIban : Str → Bool × Str := fun _ => (true, [])

example : isCneStrict ("AB123456".data) = true := by decide
example : isCneStrict ("A123456".data) = true := by decide
example : isCneStrict ("ab-123456".data) = true := by decide
example : isCneStrict ("ABC123456".data) = false := by decide
example : cleanName ("JEAN-PIERRE".data) = "JEAN PIERRE".data := by decide
example : cleanName ("  Jean3 du Pont ".data) = "Jean du Pont".data := by decide
example : normSpaces ("  a   b ".data) = "a b".data := by decide
example : extractCneByContext ("AB123456 FOO CIN CD654321".data) ["CIN".data]
    = "CD654321".data := by decide
example : extractCneByContext ("xx ab-123456 yy".data) [] = "AB123456".data := by decide
example : extractCneByContext ("nothing here".data) ["CIN".data] = [] := by decide
example : parseDurationDays ("15 ans".data) = some 5475 := by decide
example : parseDurationDays ("1 an 2 mois 3 jours".data) = some 428 := by decide
example : parseDurationDays ("soon".data) = none := by decide
example : findSubIdx ("MA".data) ("XMAB".data) = some 1 := by decide

example :
    (validateExtractedData 0 fixedParse fixedVDF fixedIban
      { score := some 95, fraud_signals := [("x".data)] } {} []).decision
      = ("ACCEPT".data) := by decide

example :
    (validateExtractedData 0 fixedParse fixedVDF fixedIban
      { score := some 95 } { potential_tampering := true } []).decision
      = ("REVIEW".data) := by decide

example :
    (validateExtractedData 200 fixedParse fixedVDF fixedIban
      { doc_type := some ("ID".data),
        extracted_data := [(("cni_cne".data), ("AB123456".data)),
                           (("cni_expiry_date".data), ("01/01/2020".data))] } {} []).score
      = 54 := by decide

/-! ## Association-map lemmas -/

theorem mapGet?_cons (p : Str × Str) (rest : List (Str × Str)) (k : Str) :
    mapGet? (p :: rest) k = if (p.1 == k) = true then some p.2 else mapGet? rest k := by
  by_cases h : (p.1 == k) = true
  · rw [if_pos h]; unfold mapGet?
    rw [@List.find?_cons_of_pos _ (fun q => q.1 == k) p rest h]
    rfl
  · rw [if_neg h]; unfold mapGet?
    rw [@List.find?_cons_of_neg _ (fun q => q.1 == k) p rest h]

theorem mapSet_cons (p : Str × Str) (rest : List (Str × Str)) (k v : Str) :
    mapSet (p :: rest) k v =
      if (p.1 == k) = true then (k, v) :: rest else p :: mapSet rest k v := rfl

theorem mapGet?_mapSet_self (m : List (Str × Str)) (k v : Str) :
    mapGet? (mapSet m k v) k = some v := by
  induction m with
  | nil => simp [mapGet?, mapSet]
  | cons p rest ih =>
    rw [mapSet_cons]
    by_cases h : (p.1 == k) = true
    · rw [if_pos h, mapGet?_cons]
      simp
    · rw [if_neg h, mapGet?_cons, if_neg h]
      exact ih

theorem mapGet?_mapSet_ne (m : List (Str × Str)) (k k' v : Str) (h : k' ≠ k) :
    mapGet? (mapSet m k v) k' = mapGet? m k' := by
  have hk : (k == k') = false := beq_eq_false_iff_ne.mpr (Ne.symm h)
  induction m with
  | nil =>
    show mapGet? [(k, v)] k' = mapGet? [] k'
    rw [mapGet?_cons]
    simp [mapGet?, hk]
  | cons p rest ih =>
    rw [mapSet_cons]
    by_cases hp : (p.1 == k) = true
    · rw [if_pos hp, mapGet?_cons, mapGet?_cons]
      have : p.1 = k := by simpa using hp
      rw [this]
      simp [hk]
    · rw [if_neg hp, mapGet?_cons, mapGet?_cons]
      by_cases hpk' : (p.1 == k') = true
      · rw [if_pos hpk', if_pos hpk']
      · rw [if_neg hpk', if_neg hpk']
        exact ih

/-- A conditional in-place update of one key preserves the absence of any
key (whether or not the keys coincide: an update of the absent key only
happens when the key was present). -/
theorem mapGet?_condUpdate_none (m : List (Str × Str)) (k k' : Str) (f : Str → Str)
    (guard : Str → Bool) (h : mapGet? m k = none) :
    mapGet? (match mapGet? m k' with
      | some v => if guard v then mapSet m k' (f v) else m
      | none => m) k = none := by
  cases hv : mapGet? m k' with
  | none => simpa using h
  | some v =>
    by_cases hg : guard v
    · simp only [hg, if_pos]
      by_cases hkk : k = k'
      · subst hkk; rw [hv] at h; exact absurd h (by simp)
      · rw [mapGet?_mapSet_ne m k' k (f v) hkk]; exact h
    · simpa [hg] using h

/-! ## Unfolded forms of the assembled result -/

theorem ved_score_eq (today : Int) (pd : Str → Option Int) (vdf vib : Str → Bool × Str)
    (g : GroqResult) (tech : TechReport) (raw : Str) :
    (validateExtractedData today pd vdf vib g tech raw).score =
      max 0 (baseScoreOf g.score -
        (6 * ((validationErrors today pd vdf vib g raw).length : Int) +
         10 * ((techFraudSignals tech).length : Int))) := rfl

theorem ved_decision_eq (today : Int) (pd : Str → Option Int) (vdf vib : Str → Bool × Str)
    (g : GroqResult) (tech : TechReport) (raw : Str) :
    (validateExtractedData today pd vdf vib g tech raw).decision =
      (if tech.potential_tampering then ("REVIEW".data)
       else if 85 ≤ (validateExtractedData today pd vdf vib g tech raw).score ∧
              (!(techFraudSignals tech).isEmpty) = false ∧
              validationErrors today pd vdf vib g raw = []
            then ("ACCEPT".data)
            else ("REVIEW".data)) := rfl

/-! ## Claims -/

/-- **C3** (code evaluated at the failing input): the strict-code
predicate of the source accepts `"A123456"`, whose normalisation
`"A123456"` has a single leading letter — the regex of `_is_cne_strict`
is `[A-Z]{1,2}\d{6}`, although the error message the validator emits for
this very check announces two letters and six digits. -/
theorem c3_code_eval :
    isCneStrict ("A123456".data) = true ∧
    normalizeCne ("A123456".data) = ("A123456".data) := by
  constructor
  · decide
  · decide

/-- **C6**: every result of the engine, and the fixed result built on the
collaborator-failure path, has a decision that is ACCEPT or REVIEW (never
a third value), and `is_valid` holds exactly when the decision is
ACCEPT. -/
theorem c6_theorem :
    (∀ (today : Int) (pd : Str → Option Int) (vdf vib : Str → Bool × Str)
       (g : GroqResult) (tech : TechReport) (raw : Str),
      ((validateExtractedData today pd vdf vib g tech raw).decision = ("ACCEPT".data) ∨
       (validateExtractedData today pd vdf vib g tech raw).decision = ("REVIEW".data)) ∧
      ((validateExtractedData today pd vdf vib g tech raw).is_valid = true ↔
       (validateExtractedData today pd vdf vib g tech raw).decision = ("ACCEPT".data))) ∧
    (∀ dt msg : Str,
      (groqErrorResult dt msg).decision = ("REVIEW".data) ∧
      (groqErrorResult dt msg).is_valid = false) := by
  constructor
  · intro today pd vdf vib g tech raw
    constructor
    · rw [ved_decision_eq]
      split
      · exact Or.inr rfl
      · split
        · exact Or.inl rfl
        · exact Or.inr rfl
    · exact decide_eq_true_iff
  · intro dt msg
    exact ⟨rfl, rfl⟩

/-- **C2** (counterexample): an input whose upstream extraction proposes
one fraud signal, a score of 60, and nothing else.  The produced
fraud-signal set has one element and there are no format errors, so the
claim's penalty formula demands `60 − 10 × 1 = 50`; the engine leaves the
score at 60 — the upstream signals are merged into the output set but are
not counted in the penalty. -/
theorem c2_counterexample :
    (validateExtractedData 0 fixedParse fixedVDF fixedIban
      { score := some 60, fraud_signals := [("manual fraud flag".data)] } {} []).fraud_signals
        = [("manual fraud flag".data)] ∧
    validationErrors 0 fixedParse fixedVDF fixedIban
      { score := some 60, fraud_signals := [("manual fraud flag".data)] } [] = [] ∧
    (validateExtractedData 0 fixedParse fixedVDF fixedIban
      { score := some 60, fraud_signals := [("manual fraud flag".data)] } {} []).score = 60 := by
  refine ⟨by decide, by decide, by decide⟩

/-- **C2** (amended): the penalty counts 6 per accumulated format error
plus 10 per fraud signal **derived from the tech report** — the
upstream-proposed signals are merged (deduplicated) into the reported
fraud-signal set but do not enter the penalty — and the final score is
`max 0 (base − penalty)`, the base being the upstream score with 60
substituted when it is absent, null or zero. -/
theorem c2_theorem (today : Int) (pd : Str → Option Int) (vdf vib : Str → Bool × Str)
    (g : GroqResult) (tech : TechReport) (raw : Str) :
    (validateExtractedData today pd vdf vib g tech raw).score =
      max 0 (baseScoreOf g.score -
        (6 * ((validationErrors today pd vdf vib g raw).length : Int) +
         10 * ((techFraudSignals tech).length : Int))) ∧
    (validateExtractedData today pd vdf vib g tech raw).fraud_signals =
      (g.fraud_signals ++ techFraudSignals tech).dedup := ⟨rfl, rfl⟩

/-- **C7** (counterexample): an upstream-proposed score of 150 passes
through untouched — the engine clamps only from below, so the produced
score exceeds 100. -/
theorem c7_counterexample :
    (validateExtractedData 0 fixedParse fixedVDF fixedIban
      { score := some 150 } {} []).score = 150 ∧
    ¬ ((validateExtractedData 0 fixedParse fixedVDF fixedIban
      { score := some 150 } {} []).score ≤ 100) := by
  refine ⟨by decide, by decide⟩

/-- **C7** (amended): the produced score is never negative, and it is at
most 100 whenever the effective base score is at most 100 (in particular
whenever the upstream score is absent or within 0–100); an upstream base
score above 100 can propagate above 100. -/
theorem c7_theorem (today : Int) (pd : Str → Option Int) (vdf vib : Str → Bool × Str)
    (g : GroqResult) (tech : TechReport) (raw : Str) :
    0 ≤ (validateExtractedData today pd vdf vib g tech raw).score ∧
    (baseScoreOf g.score ≤ 100 →
      (validateExtractedData today pd vdf vib g tech raw).score ≤ 100) := by
  rw [ved_score_eq]
  constructor
  · exact le_max_left 0 _
  · intro h
    have h6 : (0 : Int) ≤ 6 * ((validationErrors today pd vdf vib g raw).length : Int) := by
      positivity
    have h10 : (0 : Int) ≤ 10 * ((techFraudSignals tech).length : Int) := by positivity
    omega

/-- Witness for C7 at a concrete input (base score 60). -/
theorem c7_witness :
    0 ≤ (validateExtractedData 0 fixedParse fixedVDF fixedIban {} {} []).score ∧
    (validateExtractedData 0 fixedParse fixedVDF fixedIban {} {} []).score ≤ 100 := by
  have h := c7_theorem 0 fixedParse fixedVDF fixedIban {} {} []
  exact ⟨h.1, h.2 (by decide)⟩

/-- **C1** (counterexample): no tampering, upstream proposes one fraud
signal and a score of 95, no format errors: the produced fraud-signal set
is non-empty, yet the decision is ACCEPT — the claim demands REVIEW
whenever fraud signals exist. -/
theorem c1_counterexample :
    (validateExtractedData 0 fixedParse fixedVDF fixedIban
      { score := some 95, fraud_signals := [("upstream signal".data)] } {} []).decision
      = ("ACCEPT".data) ∧
    (validateExtractedData 0 fixedParse fixedVDF fixedIban
      { score := some 95, fraud_signals := [("upstream signal".data)] } {} []).fraud_signals
      = [("upstream signal".data)] ∧
    ({} : TechReport).potential_tampering = false := by
  refine ⟨by decide, by decide, rfl⟩

/-- **C1** (amended): the decision is computed in order — tampering
forces REVIEW regardless of everything else; otherwise ACCEPT exactly
when the final score is at least 85 **and** the tech report derived no
fraud signal (upstream-proposed signals do not block acceptance) **and**
no format error accumulated; otherwise REVIEW. -/
theorem c1_theorem (today : Int) (pd : Str → Option Int) (vdf vib : Str → Bool × Str)
    (g : GroqResult) (tech : TechReport) (raw : Str) :
    (tech.potential_tampering = true →
      (validateExtractedData today pd vdf vib g tech raw).decision = ("REVIEW".data)) ∧
    (tech.potential_tampering = false →
      ((validateExtractedData today pd vdf vib g tech raw).decision = ("ACCEPT".data) ↔
        (85 ≤ (validateExtractedData today pd vdf vib g tech raw).score ∧
         techFraudSignals tech = [] ∧
         validationErrors today pd vdf vib g raw = []))) ∧
    (tech.potential_tampering = false →
      ¬ (85 ≤ (validateExtractedData today pd vdf vib g tech raw).score ∧
         techFraudSignals tech = [] ∧
         validationErrors today pd vdf vib g raw = []) →
      (validateExtractedData today pd vdf vib g tech raw).decision = ("REVIEW".data)) := by
  have hcond :
      (85 ≤ (validateExtractedData today pd vdf vib g tech raw).score ∧
        (!(techFraudSignals tech).isEmpty) = false ∧
        validationErrors today pd vdf vib g raw = []) ↔
      (85 ≤ (validateExtractedData today pd vdf vib g tech raw).score ∧
        techFraudSignals tech = [] ∧
        validationErrors today pd vdf vib g raw = []) := by
    constructor
    · rintro ⟨h1, h2, h3⟩
      refine ⟨h1, ?_, h3⟩
      have := List.isEmpty_iff.mp (by simpa using h2)
      exact this
    · rintro ⟨h1, h2, h3⟩
      refine ⟨h1, ?_, h3⟩
      simp [h2]
  refine ⟨fun ht => ?_, fun ht => ?_, fun ht hn => ?_⟩
  · rw [ved_decision_eq, if_pos ht]
  · rw [ved_decision_eq, if_neg (by simp [ht])]
    by_cases hc : (85 ≤ (validateExtractedData today pd vdf vib g tech raw).score ∧
        techFraudSignals tech = [] ∧
        validationErrors today pd vdf vib g raw = [])
    · rw [if_pos (hcond.mpr hc)]
      exact iff_of_true rfl hc
    · rw [if_neg (fun h => hc (hcond.mp h))]
      exact iff_of_false (by decide) hc
  · rw [ved_decision_eq, if_neg (by simp [ht]), if_neg (fun h => hn (hcond.mp h))]

/-- Witness for C1: a tampered input is forced to REVIEW, and an
untampered 95-score input with no signals and no errors is ACCEPTed. -/
theorem c1_witness :
    (validateExtractedData 0 fixedParse fixedVDF fixedIban {}
      { potential_tampering := true } []).decision = ("REVIEW".data) ∧
    (validateExtractedData 0 fixedParse fixedVDF fixedIban
      { score := some 95 } {} []).decision = ("ACCEPT".data) := by
  constructor
  · exact (c1_theorem 0 fixedParse fixedVDF fixedIban {}
      { potential_tampering := true } []).1 rfl
  · exact ((c1_theorem 0 fixedParse fixedVDF fixedIban
      { score := some 95 } {} []).2.1 rfl).mpr ⟨by decide, by decide, by decide⟩

/-! ## Further lemmas: key absence, branch preservation -/

theorem foldl_get_none (step : List (Str × Str) → Str → List (Str × Str))
    (hstep : ∀ m k0 k, mapGet? m k = none → mapGet? (step m k0) k = none)
    (keys : List Str) (m : List (Str × Str)) (k : Str)
    (h : mapGet? m k = none) : mapGet? (keys.foldl step m) k = none := by
  induction keys generalizing m with
  | nil => exact h
  | cons k0 ks ih => exact ih (step m k0) (hstep m k0 k h)

theorem cleanStep_get_none (m : List (Str × Str)) (k0 k : Str)
    (h : mapGet? m k = none) : mapGet? (cleanStep m k0) k = none := by
  unfold cleanStep
  cases hv : mapGet? m k0 with
  | none => exact h
  | some v =>
    by_cases hkk : k = k0
    · subst hkk; rw [hv] at h; exact absurd h (by simp)
    · rw [mapGet?_mapSet_ne m k0 k (cleanName v) hkk]; exact h

theorem cneStep_get_none (m : List (Str × Str)) (k0 k : Str)
    (h : mapGet? m k = none) : mapGet? (cneStep m k0) k = none := by
  unfold cneStep
  cases hv : mapGet? m k0 with
  | none => exact h
  | some v =>
    by_cases he : v.isEmpty
    · simp only [he, if_pos]; exact h
    · simp only [he, if_neg, Bool.false_eq_true, not_false_iff]
      by_cases hkk : k = k0
      · subst hkk; rw [hv] at h; exact absurd h (by simp)
      · rw [mapGet?_mapSet_ne m k0 k (normalizeCne v) hkk]; exact h

theorem initState_get_none (g : GroqResult) (k : Str)
    (h : mapGet? g.extracted_data k = none) :
    mapGet? (initState g).extracted k = none := by
  unfold initState normCneFields cleanNameFields
  exact foldl_get_none cneStep cneStep_get_none _ _ k
    (foldl_get_none cleanStep cleanStep_get_none _ _ k h)

/-! Projections of the assembled result, definitionally. -/

theorem ved_fvRib_eq (today : Int) (pd : Str → Option Int) (vdf vib : Str → Bool × Str)
    (g : GroqResult) (tech : TechReport) (raw : Str) :
    (validateExtractedData today pd vdf vib g tech raw).fv_rib =
      (finalState today pd vdf vib g raw).fvRib := rfl

theorem ved_fvCne_eq (today : Int) (pd : Str → Option Int) (vdf vib : Str → Bool × Str)
    (g : GroqResult) (tech : TechReport) (raw : Str) :
    (validateExtractedData today pd vdf vib g tech raw).fv_cne =
      (finalState today pd vdf vib g raw).fvCne := rfl

theorem ved_extracted_eq (today : Int) (pd : Str → Option Int) (vdf vib : Str → Bool × Str)
    (g : GroqResult) (tech : TechReport) (raw : Str) :
    (validateExtractedData today pd vdf vib g tech raw).extracted_data =
      (finalState today pd vdf vib g raw).extracted := rfl

/-- On a BANK document the rules reduce to the BANK branch. -/
theorem finalState_bank (today : Int) (pd : Str → Option Int) (vdf vib : Str → Bool × Str)
    (g : GroqResult) (raw : Str) (hdt : docTypeOf g = ("BANK".data)) :
    finalState today pd vdf vib g raw =
      bankRules vib (!g.extracted_data.isEmpty) (initState g) := by
  unfold finalState runTypeRules
  rw [hdt, if_neg (by decide), if_pos rfl]

/-- On a DEATH document the rules reduce to the DEATH branch. -/
theorem finalState_death (today : Int) (pd : Str → Option Int) (vdf vib : Str → Bool × Str)
    (g : GroqResult) (raw : Str) (hdt : docTypeOf g = ("DEATH".data)) :
    finalState today pd vdf vib g raw = deathRules today pd vdf (initState g) := by
  unfold finalState runTypeRules
  rw [hdt, if_neg (by decide), if_neg (by decide), if_pos rfl]

/-- The stages of the BANK branch never touch the RIB flag. -/
theorem bankWriteRib_fvRib (al : Bool) (r : Str) (st : VState) :
    (bankWriteRib al r st).fvRib = st.fvRib := by
  unfold bankWriteRib; split <;> rfl

theorem bankHolderCheck_fvRib (h : Str) (st : VState) :
    (bankHolderCheck h st).fvRib = st.fvRib := by
  unfold bankHolderCheck; split <;> rfl

theorem bankIbanPart_fvRib (vib : Str → Bool × Str) (al : Bool) (iban : Str) (st : VState) :
    (bankIbanPart vib al iban st).fvRib = st.fvRib := by
  unfold bankIbanPart
  dsimp only
  repeat' split
  all_goals rfl

theorem bankRules_fvRib (vib : Str → Bool × Str) (al : Bool) (st : VState) :
    (bankRules vib al st).fvRib = st.fvRib := by
  unfold bankRules
  rw [bankIbanPart_fvRib, bankHolderCheck_fvRib, bankWriteRib_fvRib]

/-- The RIB assembled by the BANK branch from the prepared fields of an
upstream result. -/
def assembledRib (g : GroqResult) : Str :=
  let ex := (initState g).extracted
  ((normalizeCne (mapGetD ex ("bank_code_banque".data))) ++
   (normalizeCne (mapGetD ex ("bank_code_ville".data))) ++
   (normalizeCne (mapGetD ex ("bank_numero_compte".data))) ++
   (normalizeCne (mapGetD ex ("bank_cle_rib".data)))).filter isAsciiDigit

theorem bankHolderCheck_extracted (h : Str) (st : VState) :
    (bankHolderCheck h st).extracted = st.extracted := by
  unfold bankHolderCheck; split <;> rfl

theorem bankIbanPart_get_ne (vib : Str → Bool × Str) (al : Bool) (iban k : Str)
    (hk : k ≠ ("bank_iban".data)) :
    mapGet? (bankIbanPart vib al iban st).extracted k = mapGet? st.extracted k := by
  unfold bankIbanPart
  dsimp only
  repeat' split
  all_goals first
    | rfl
    | rw [mapGet?_mapSet_ne _ _ _ _ hk]

/-- With a non-empty incoming dictionary, the BANK branch stores the
assembled RIB under `bank_rib_code`, and nothing later overwrites it. -/
theorem bankRules_ribCode (vib : Str → Bool × Str) (st : VState) :
    mapGet? (bankRules vib true st).extracted ("bank_rib_code".data) =
      some (((normalizeCne (mapGetD st.extracted ("bank_code_banque".data))) ++
        (normalizeCne (mapGetD st.extracted ("bank_code_ville".data))) ++
        (normalizeCne (mapGetD st.extracted ("bank_numero_compte".data))) ++
        (normalizeCne (mapGetD st.extracted ("bank_cle_rib".data)))).filter isAsciiDigit) := by
  unfold bankRules
  rw [bankIbanPart_get_ne _ _ _ _ (by decide), bankHolderCheck_extracted]
  unfold bankWriteRib
  rw [if_pos rfl]
  exact mapGet?_mapSet_self _ _ _

/-- A concrete BANK upstream result with well-formed components. -/
def cgBank : GroqResult :=
  { doc_type := some ("BANK".data)
    score := some 90
    extracted_data := [(("bank_account_holder".data), ("SOME HOLDER".data)),
                       (("bank_code_banque".data), ("011".data)),
                       (("bank_code_ville".data), ("640".data)),
                       (("bank_numero_compte".data), ("1234567890123456".data)),
                       (("bank_cle_rib".data), ("78".data))] }

/-- A concrete BANK upstream result whose components assemble to only
four digits. -/
def cgBankShort : GroqResult :=
  { doc_type := some ("BANK".data)
    score := some 90
    extracted_data := [(("bank_account_holder".data), ("SOME HOLDER".data)),
                       (("bank_code_banque".data), ("1".data)),
                       (("bank_code_ville".data), ("2".data)),
                       (("bank_numero_compte".data), ("3".data)),
                       (("bank_cle_rib".data), ("4".data))] }

/-- **C4** (counterexample): a BANK document whose four components strip
to `"1234"` — four digits, not 24.  The claim demands `rib_format_valid`
be flipped to false; the engine leaves it true (and no format error is
recorded): the 24-digit comparison has an empty body and no
bank-identifier validator is ever invoked. -/
theorem c4_counterexample :
    (validateExtractedData 0 fixedParse fixedVDF fixedIban cgBankShort {} []).fv_rib = true ∧
    mapGet? (validateExtractedData 0 fixedParse fixedVDF fixedIban
      cgBankShort {} []).extracted_data ("bank_rib_code".data) = some ("1234".data) ∧
    ("1234".data).length ≠ 24 ∧
    validationErrors 0 fixedParse fixedVDF fixedIban cgBankShort [] = [] := by
  refine ⟨by decide, by decide, by decide, by decide⟩

/-- **C4** (amended): for a BANK document the engine assembles the RIB by
concatenating the four components with non-digits stripped and (when the
incoming extracted dictionary is non-empty) stores it under
`bank_rib_code`; but it enforces no 24-digit requirement and invokes no
bank-identifier validator: `rib_format_valid` keeps its incoming value
(default true) whatever the components are. -/
theorem c4_theorem (today : Int) (pd : Str → Option Int) (vdf vib : Str → Bool × Str)
    (g : GroqResult) (tech : TechReport) (raw : Str)
    (hdt : docTypeOf g = ("BANK".data)) :
    (validateExtractedData today pd vdf vib g tech raw).fv_rib =
      g.format_validation.rib.getD true ∧
    (g.extracted_data ≠ [] →
      mapGet? (validateExtractedData today pd vdf vib g tech raw).extracted_data
        ("bank_rib_code".data) = some (assembledRib g)) := by
  constructor
  · rw [ved_fvRib_eq, finalState_bank today pd vdf vib g raw hdt, bankRules_fvRib]
    rfl
  · intro hne
    have hal : (!g.extracted_data.isEmpty) = true := by
      simp [List.isEmpty_iff, hne]
    rw [ved_extracted_eq, finalState_bank today pd vdf vib g raw hdt, hal,
      bankRules_ribCode]
    rfl

/-- Witness for C4: the well-formed components assemble to the expected
24-digit string and the flag stays at its default. -/
theorem c4_witness :
    (validateExtractedData 0 fixedParse fixedVDF fixedIban cgBank {} []).fv_rib = true ∧
    mapGet? (validateExtractedData 0 fixedParse fixedVDF fixedIban
      cgBank {} []).extracted_data ("bank_rib_code".data)
      = some ("011640123456789012345678".data) := by
  have h := c4_theorem 0 fixedParse fixedVDF fixedIban cgBank {} [] (by decide)
  refine ⟨h.1.trans (by decide), (h.2 (by decide)).trans (by decide)⟩

/-- The date against which the DEATH branch applies its temporal rule:
the stored death date, unified by the external format validator when it
accepts it, then parsed. -/
def deathParsedFrom (pd : Str → Option Int) (vdf : Str → Bool × Str)
    (ex : List (Str × Str)) : Option Int :=
  let rawD := normSpaces (mapGetD ex ("death_date".data))
  let res := vdf rawD
  let ex1 := if res.1 then mapSet ex ("death_date".data) res.2 else ex
  pd (mapGetD ex1 ("death_date".data))

/-- The DEATH branch never touches the identity-code flag. -/
theorem deathRules_fvCne (today : Int) (pd : Str → Option Int)
    (vdf : Str → Bool × Str) (st : VState) :
    (deathRules today pd vdf st).fvCne = st.fvCne := by
  unfold deathRules
  dsimp only
  repeat' split
  all_goals rfl

/-- The DEATH branch writes no key other than the death date. -/
theorem deathRules_get_ne (today : Int) (pd : Str → Option Int)
    (vdf : Str → Bool × Str) (st : VState) (k : Str)
    (hk : k ≠ ("death_date".data)) :
    mapGet? (deathRules today pd vdf st).extracted k = mapGet? st.extracted k := by
  unfold deathRules
  dsimp only
  repeat' split
  all_goals first
    | rfl
    | rw [mapGet?_mapSet_ne _ _ _ _ hk]

/-- The only error the DEATH branch can add is the future-death message,
exactly when the parsed death date is strictly after today. -/
theorem deathRules_errors (today : Int) (pd : Str → Option Int)
    (vdf : Str → Bool × Str) (st : VState) :
    (deathRules today pd vdf st).errors =
      st.errors ++
        (match deathParsedFrom pd vdf st.extracted with
         | some d =>
           if d > today then
             [("Date décès dans le futur: ".data) ++ (toString d).data]
           else []
         | none => []) := by
  unfold deathRules deathParsedFrom
  dsimp only
  by_cases hres :
      (vdf (normSpaces (mapGetD st.extracted ("death_date".data)))).1 = true
  · rw [if_pos hres, if_pos hres]
    cases hp : pd (mapGetD (mapSet st.extracted ("death_date".data)
        (vdf (normSpaces (mapGetD st.extracted ("death_date".data)))).2)
        ("death_date".data)) with
    | none => simp
    | some d =>
      dsimp only
      by_cases hd : d > today
      · rw [if_pos hd, if_pos hd]
      · rw [if_neg hd, if_neg hd]; simp
  · rw [if_neg hres, if_neg hres]
    cases hp : pd (mapGetD st.extracted ("death_date".data)) with
    | none => simp
    | some d =>
      dsimp only
      by_cases hd : d > today
      · rw [if_pos hd, if_pos hd]
      · rw [if_neg hd, if_neg hd]; simp

/-- A concrete DEATH upstream result with the deceased identity code
missing (and a non-empty dictionary). -/
def cgDeath : GroqResult :=
  { doc_type := some ("DEATH".data)
    score := some 90
    extracted_data := [(("deceased_full_name".data), ("FOO BAR".data))] }

/-- **C5** (counterexample): a DEATH document whose deceased identity
code is absent while the raw OCR text holds a strict code right after
the keyword CIN (the contextual extractor would find it, as the last
conjunct shows).  The claim demands recovery or a format error plus a
flag flip; the engine does nothing: no error, flag still true, no code
stored. -/
theorem c5_counterexample :
    validationErrors 0 fixedParse fixedVDF fixedIban cgDeath ("CIN AB123456".data) = [] ∧
    (validateExtractedData 0 fixedParse fixedVDF fixedIban cgDeath {}
      ("CIN AB123456".data)).fv_cne = true ∧
    mapGet? (validateExtractedData 0 fixedParse fixedVDF fixedIban cgDeath {}
      ("CIN AB123456".data)).extracted_data ("deceased_cne".data) = none ∧
    extractCneByContext ("CIN AB123456".data)
      [("DECE".data), ("CIN".data), ("CNIE".data)] = ("AB123456".data) := by
  refine ⟨by decide, by decide, by decide, by decide⟩

/-- **C5** (amended): for a DEATH document only the death date is
checked: the deceased identity code and birth date are not required — no
contextual extraction is attempted, a missing identity code produces no
format error, no code is stored, and `cne_format_valid` keeps its
incoming value; the death-date rule appends its descriptive string
exactly when the parsed death date is strictly after today, never
raising and never short-circuiting. -/
theorem c5_theorem (today : Int) (pd : Str → Option Int) (vdf vib : Str → Bool × Str)
    (g : GroqResult) (tech : TechReport) (raw : Str)
    (hdt : docTypeOf g = ("DEATH".data)) :
    (validateExtractedData today pd vdf vib g tech raw).fv_cne =
      g.format_validation.cne.getD true ∧
    (mapGet? g.extracted_data ("deceased_cne".data) = none →
      mapGet? (validateExtractedData today pd vdf vib g tech raw).extracted_data
        ("deceased_cne".data) = none) ∧
    validationErrors today pd vdf vib g raw =
      (match deathParsedFrom pd vdf (initState g).extracted with
       | some d =>
         if d > today then
           [("Date décès dans le futur: ".data) ++ (toString d).data]
         else []
       | none => []) := by
  refine ⟨?_, fun h => ?_, ?_⟩
  · rw [ved_fvCne_eq, finalState_death today pd vdf vib g raw hdt, deathRules_fvCne]
    rfl
  · rw [ved_extracted_eq, finalState_death today pd vdf vib g raw hdt,
      deathRules_get_ne _ _ _ _ _ (by decide)]
    exact initState_get_none g _ h
  · show (finalState today pd vdf vib g raw).errors = _
    rw [finalState_death today pd vdf vib g raw hdt, deathRules_errors]
    exact List.nil_append _

/-- Witness for C5 at the concrete DEATH input. -/
theorem c5_witness :
    (validateExtractedData 0 fixedParse fixedVDF fixedIban cgDeath {} []).fv_cne = true ∧
    mapGet? (validateExtractedData 0 fixedParse fixedVDF fixedIban
      cgDeath {} []).extracted_data ("deceased_cne".data) = none ∧
    validationErrors 0 fixedParse fixedVDF fixedIban cgDeath [] = [] := by
  have h := c5_theorem 0 fixedParse fixedVDF fixedIban cgDeath {} [] (by decide)
  refine ⟨h.1.trans (by decide), h.2.1 (by decide), (h.2.2).trans (by decide)⟩

/-! ## Observation points for the temporal rules (C10) -/

/-- On an ID document the rules reduce to the ID branch. -/
theorem finalState_id (today : Int) (pd : Str → Option Int) (vdf vib : Str → Bool × Str)
    (g : GroqResult) (raw : Str) (hdt : docTypeOf g = ("ID".data)) :
    finalState today pd vdf vib g raw = idRules today pd vdf raw (initState g) := by
  unfold finalState runTypeRules
  rw [hdt, if_pos rfl]

/-- On a LIFE_CONTRACT document the rules reduce to the LIFE branch. -/
theorem finalState_life (today : Int) (pd : Str → Option Int) (vdf vib : Str → Bool × Str)
    (g : GroqResult) (raw : Str) (hdt : docTypeOf g = ("LIFE_CONTRACT".data)) :
    finalState today pd vdf vib g raw = lifeRules today pd vdf raw (initState g) := by
  unfold finalState runTypeRules
  rw [hdt, if_neg (by decide), if_neg (by decide), if_neg (by decide), if_pos rfl]

/-- **C10**: the implemented temporal policy.  For ID, a parsed expiry on
or before today appends the project-rule error (expiry must be strictly
after today).  For DEATH, a parsed death date strictly after today
appends the future-death error.  For LIFE_CONTRACT, a parsed end date on
or after today appends an error (end must be strictly before today),
while in the duration fallback an effective date plus duration on or
before today appends an error (the computed end must be strictly after
today — the opposite direction of the end-date branch). -/
theorem c10_theorem (today : Int) (pd : Str → Option Int) (vdf vib : Str → Bool × Str)
    (g : GroqResult) (raw : Str) :
    (docTypeOf g = ("ID".data) →
      ∀ d st', idExpiryCheck pd vdf raw (initState g) = (some d, st') →
        validationErrors today pd vdf vib g raw =
          st'.errors ++ (if d ≤ today then
            [("CNI invalide selon règle projet: date expiration doit être > date du jour.".data)]
          else [])) ∧
    (docTypeOf g = ("DEATH".data) →
      ∀ d, deathParsedFrom pd vdf (initState g).extracted = some d →
        validationErrors today pd vdf vib g raw =
          (if d > today then
            [("Date décès dans le futur: ".data) ++ (toString d).data]
          else [])) ∧
    (docTypeOf g = ("LIFE_CONTRACT".data) →
      ∀ e st', lifeEndCheck pd vdf raw (initState g) = (some e, st') →
        validationErrors today pd vdf vib g raw =
          st'.errors ++ (if e ≥ today then
            [("Contrat invalide selon règle projet: date fin doit être < date du jour.".data)]
          else [])) ∧
    (docTypeOf g = ("LIFE_CONTRACT".data) →
      (lifeEndCheck pd vdf raw (initState g)).1 = none →
      ∀ f, (lifeEffCheck pd vdf raw (initState g)).1 = some f →
        ∀ td, parseDurationDays (normSpaces (mapGetD
            (lifeEndCheck pd vdf raw (initState g)).2.extracted
            ("contract_duration".data))) = some td →
          validationErrors today pd vdf vib g raw =
            (lifeEndCheck pd vdf raw (initState g)).2.errors ++ (if f + td ≤ today then
              [("Contrat invalide selon règle projet: date effet + durée doit être < date du jour.".data)]
            else [])) := by
  refine ⟨fun hdt d st' hr => ?_, fun hdt d hp => ?_, fun hdt e st' hr => ?_,
    fun hdt hend f heff td htd => ?_⟩
  · show (finalState today pd vdf vib g raw).errors = _
    rw [finalState_id today pd vdf vib g raw hdt]
    unfold idRules
    rw [hr]
    dsimp only
    by_cases hd : d ≤ today
    · rw [if_pos hd, if_pos hd]
    · rw [if_neg hd, if_neg hd]; simp
  · show (finalState today pd vdf vib g raw).errors = _
    rw [finalState_death today pd vdf vib g raw hdt, deathRules_errors, hp]
    dsimp only
    by_cases hd : d > today
    · rw [if_pos hd]; exact List.nil_append _
    · rw [if_neg hd]; exact List.nil_append _
  · show (finalState today pd vdf vib g raw).errors = _
    rw [finalState_life today pd vdf vib g raw hdt]
    unfold lifeRules
    rw [hr]
    dsimp only
    by_cases hd : e ≥ today
    · rw [if_pos hd, if_pos hd]
    · rw [if_neg hd, if_neg hd]; simp
  · show (finalState today pd vdf vib g raw).errors = _
    rw [finalState_life today pd vdf vib g raw hdt]
    unfold lifeRules
    dsimp only
    rw [hend, heff, htd]
    dsimp only
    by_cases hd : f + td ≤ today
    · rw [if_pos hd, if_pos hd]
    · rw [if_neg hd, if_neg hd]; simp

/-- Concrete fixtures exercising each temporal rule. -/
def cgId : GroqResult :=
  { doc_type := some ("ID".data)
    score := some 90
    extracted_data := [(("cni_cne".data), ("AB123456".data)),
                       (("cni_expiry_date".data), ("01/01/2020".data))] }

def cgDeathFuture : GroqResult :=
  { doc_type := some ("DEATH".data)
    score := some 90
    extracted_data := [(("death_date".data), ("01/01/2030".data))] }

def cgLifeEnd : GroqResult :=
  { doc_type := some ("LIFE_CONTRACT".data)
    score := some 90
    extracted_data := [(("insured_cne".data), ("AB123456".data)),
                       (("beneficiary_cne".data), ("CD789012".data)),
                       (("contract_end_date".data), ("01/01/2020".data))] }

def cgLifeDur : GroqResult :=
  { doc_type := some ("LIFE_CONTRACT".data)
    score := some 90
    extracted_data := [(("insured_cne".data), ("AB123456".data)),
                       (("beneficiary_cne".data), ("CD789012".data)),
                       (("contract_effective_date".data), ("01/01/2020".data)),
                       (("contract_duration".data), ("10 jours".data))] }

/-- Witness for C10: each of the four temporal rules fires at a concrete
input (expiry day 100 with today 200; death day 900 with today 200; end
day 100 with today 50; effective day 100 plus 10 days with today 200). -/
theorem c10_witness :
    validationErrors 200 fixedParse fixedVDF fixedIban cgId [] =
      [("CNI invalide selon règle projet: date expiration doit être > date du jour.".data)] ∧
    validationErrors 200 fixedParse fixedVDF fixedIban cgDeathFuture [] =
      [("Date décès dans le futur: ".data) ++ ("900".data)] ∧
    validationErrors 50 fixedParse fixedVDF fixedIban cgLifeEnd [] =
      [("Contrat invalide selon règle projet: date fin doit être < date du jour.".data)] ∧
    validationErrors 200 fixedParse fixedVDF fixedIban cgLifeDur [] =
      [("Contrat invalide selon règle projet: date effet + durée doit être < date du jour.".data)] := by
  have h1 : (idExpiryCheck fixedParse fixedVDF [] (initState cgId)).1 = some 100 := by decide
  have hr1 : idExpiryCheck fixedParse fixedVDF [] (initState cgId)
      = (some 100, (idExpiryCheck fixedParse fixedVDF [] (initState cgId)).2) := by
    rw [← h1]
  have h3 : (lifeEndCheck fixedParse fixedVDF [] (initState cgLifeEnd)).1 = some 100 := by
    decide
  have hr3 : lifeEndCheck fixedParse fixedVDF [] (initState cgLifeEnd)
      = (some 100, (lifeEndCheck fixedParse fixedVDF [] (initState cgLifeEnd)).2) := by
    rw [← h3]
  refine ⟨?_, ?_, ?_, ?_⟩
  · exact ((c10_theorem 200 fixedParse fixedVDF fixedIban cgId []).1
      (by decide) 100 _ hr1).trans (by decide)
  · exact ((c10_theorem 200 fixedParse fixedVDF fixedIban cgDeathFuture []).2.1
      (by decide) 900 (by decide)).trans (by decide)
  · exact ((c10_theorem 50 fixedParse fixedVDF fixedIban cgLifeEnd []).2.2.1
      (by decide) 100 _ hr3).trans (by decide)
  · exact ((c10_theorem 200 fixedParse fixedVDF fixedIban cgLifeDur []).2.2.2
      (by decide) (by decide) 100 (by decide) 10 (by decide)).trans (by decide)

/-- `find?` returns the first element satisfying the predicate. -/
theorem find?_first {α : Type} (q : α → Bool) (pre : List α) (x : α) (post : List α)
    (hpre : ∀ y ∈ pre, q y = false) (hx : q x = true) :
    (pre ++ x :: post).find? q = some x := by
  induction pre with
  | nil =>
    rw [List.nil_append]
    exact List.find?_cons_of_pos post hx
  | cons a as ih =>
    rw [List.cons_append, List.find?_cons_of_neg _ (by simp [hpre a (by simp)])]
    exact ih (fun y hy => hpre y (by simp [hy]))

/-- **C8**: contextual extraction returns the first strict match whose
120-character left window holds a keyword; with no keyword-adjacent match
it falls back to the first strict match in document order; with no strict
match at all it returns empty.  In particular, on a text holding two
strict codes where only the later one follows a keyword, the
keyword-adjacent one is returned. -/
theorem c8_theorem :
    (∀ (text : Str) (kws : List Str), kws ≠ [] → strictMatches text = [] →
      extractCneByContext text kws = []) ∧
    (∀ (text : Str) (kws : List Str) (pre : List (Str × Nat)) (c : Str) (p : Nat)
        (post : List (Str × Nat)), kws ≠ [] →
      strictMatches text = pre ++ (c, p) :: post →
      keywordNear (pyUpper text) kws p = true →
      (∀ x ∈ pre, keywordNear (pyUpper text) kws x.2 = false) →
      extractCneByContext text kws = c) ∧
    (∀ (text : Str) (kws : List Str) (c : Str) (p : Nat) (rest : List (Str × Nat)),
      kws ≠ [] →
      strictMatches text = (c, p) :: rest →
      (∀ x ∈ strictMatches text, keywordNear (pyUpper text) kws x.2 = false) →
      extractCneByContext text kws = c) ∧
    (extractCneByContext ("AB123456 FOO CIN CD654321".data) [("CIN".data)]
        = ("CD654321".data) ∧
     strictMatches ("AB123456 FOO CIN CD654321".data)
        = [(("AB123456".data), 0), (("CD654321".data), 17)]) := by
  have hraw_ne : ∀ text : Str, strictMatches text ≠ [] →
      ((cneScan none 0 (pyUpper text)).isEmpty = true) → False := by
    intro text hne hraw
    apply hne
    unfold strictMatches
    rw [List.isEmpty_iff.mp hraw]
    rfl
  have hke : ∀ kws : List Str, kws ≠ [] → kws.isEmpty = false := by
    intro kws hk
    cases kws with
    | nil => exact absurd rfl hk
    | cons a l => rfl
  refine ⟨?_, ?_, ?_, by decide, by decide⟩
  · intro text kws hk hsm
    unfold extractCneByContext
    dsimp only
    by_cases hraw : (cneScan none 0 (pyUpper text)).isEmpty = true
    · rw [if_pos hraw]
    · rw [if_neg hraw, hsm]
  · intro text kws pre c p post hk hsm hp hpre
    have hne : strictMatches text ≠ [] := by
      rw [hsm]; simp
    obtain ⟨c0, p0, rest, hsm0⟩ :
        ∃ c0 p0 rest, strictMatches text = (c0, p0) :: rest := by
      cases h : strictMatches text with
      | nil => exact absurd h hne
      | cons x xs => exact ⟨x.1, x.2, xs, rfl⟩
    have hfind : ((c0, p0) :: rest).find?
        (fun cp => keywordNear (pyUpper text) kws cp.2) = some (c, p) := by
      rw [← hsm0, hsm]
      exact find?_first _ pre (c, p) post
        (fun y hy => by simpa using hpre y hy) (by simpa using hp)
    unfold extractCneByContext
    dsimp only
    rw [if_neg (fun hraw => hraw_ne text hne hraw), hsm0]
    dsimp only
    rw [if_neg (by simp [hke kws hk]), hfind]
  · intro text kws c p rest hk hsm hall
    have hne : strictMatches text ≠ [] := by
      rw [hsm]; simp
    have hfind : ((c, p) :: rest).find?
        (fun cp => keywordNear (pyUpper text) kws cp.2) = none := by
      rw [← hsm]
      exact List.find?_eq_none.mpr (fun x hx => by simp [hall x hx])
    unfold extractCneByContext
    dsimp only
    rw [if_neg (fun hraw => hraw_ne text hne hraw), hsm]
    dsimp only
    rw [if_neg (by simp [hke kws hk]), hfind]

/-- Witness for C8: the keyword-adjacent characterisation applied at the
two-code text — the second, keyword-adjacent code is selected although a
strict code occurs earlier. -/
theorem c8_witness :
    extractCneByContext ("AB123456 FOO CIN CD654321".data) [("CIN".data)]
      = ("CD654321".data) :=
  c8_theorem.2.1 ("AB123456 FOO CIN CD654321".data) [("CIN".data)]
    [(("AB123456".data), 0)] ("CD654321".data) 17 []
    (by decide) (by decide) (by decide) (by decide)

/-! ## Lemmas about run-collapsing and stripping (C9) -/

/-- Characters of a collapsed list: the replacement character or an
original character not in a run. -/
theorem collapseAux_mem (p : Char → Bool) (r : Char) :
    ∀ (b : Bool) (l : Str) (c : Char), c ∈ collapseAux p r b l →
      c = r ∨ (c ∈ l ∧ p c = false) := by
  intro b l
  induction l generalizing b with
  | nil => intro c hc; cases hc
  | cons a as ih =>
    intro c hc
    unfold collapseAux at hc
    by_cases ha : p a = true
    · rw [if_pos ha] at hc
      cases b with
      | true =>
        rw [if_pos rfl] at hc
        rcases ih true c hc with h | ⟨h1, h2⟩
        · exact Or.inl h
        · exact Or.inr ⟨List.mem_cons_of_mem a h1, h2⟩
      | false =>
        rw [if_neg (by simp)] at hc
        rcases List.mem_cons.mp hc with h | hc2
        · exact Or.inl h
        · rcases ih true c hc2 with h | ⟨h1, h2⟩
          · exact Or.inl h
          · exact Or.inr ⟨List.mem_cons_of_mem a h1, h2⟩
    · rw [if_neg ha] at hc
      rcases List.mem_cons.mp hc with h | hc2
      · subst h
        exact Or.inr ⟨List.mem_cons_self c as, by simpa using ha⟩
      · rcases ih false c hc2 with h | ⟨h1, h2⟩
        · exact Or.inl h
        · exact Or.inr ⟨List.mem_cons_of_mem a h1, h2⟩

/-- Inside a run the next emitted character is not a run character. -/
theorem collapseAux_head_true (p : Char → Bool) (r : Char) :
    ∀ (l : Str) (d : Char), (collapseAux p r true l).head? = some d → p d = false := by
  intro l
  induction l with
  | nil => intro d hd; cases hd
  | cons a as ih =>
    intro d hd
    unfold collapseAux at hd
    by_cases ha : p a = true
    · rw [if_pos ha] at hd
      simp only [if_pos] at hd
      exact ih d hd
    · rw [if_neg ha] at hd
      simp only [List.head?_cons, Option.some.injEq] at hd
      rw [← hd]
      simpa using ha

/-- A collapsed list never holds two adjacent run characters. -/
theorem collapseAux_chain (p : Char → Bool) (r : Char) :
    ∀ (b : Bool) (l : Str),
      List.Chain' (fun a c => ¬(p a = true ∧ p c = true)) (collapseAux p r b l) := by
  intro b l
  induction l generalizing b with
  | nil => exact List.chain'_nil
  | cons a as ih =>
    unfold collapseAux
    by_cases ha : p a = true
    · rw [if_pos ha]
      cases b with
      | true => simpa using ih true
      | false =>
        simp only [Bool.false_eq_true, if_neg, not_false_iff]
        rw [List.chain'_cons']
        refine ⟨?_, ih true⟩
        intro y hy
        have := collapseAux_head_true p r as y hy
        simp [this]
    · rw [if_neg ha]
      rw [List.chain'_cons']
      refine ⟨?_, ih false⟩
      intro y hy
      simp [ha]

/-- Entering run state changes nothing when the head is not a run
character. -/
theorem collapseAux_true_of_head (p : Char → Bool) (r : Char) (l : Str)
    (h : ∀ d, l.head? = some d → p d = false) :
    collapseAux p r true l = collapseAux p r false l := by
  cases l with
  | nil => rfl
  | cons a as =>
    have := h a rfl
    unfold collapseAux
    rw [if_neg (by simp [this]), if_neg (by simp [this])]

/-- Collapsing is the identity on lists whose run characters are the
replacement character and never adjacent. -/
theorem collapseAux_eq_self (p : Char → Bool) (r : Char) :
    ∀ (l : Str), (∀ c ∈ l, p c = true → c = r) →
      List.Chain' (fun a c => ¬(p a = true ∧ p c = true)) l →
      collapseAux p r false l = l := by
  intro l
  induction l with
  | nil => intro _ _; rfl
  | cons a as ih =>
    intro h1 h2
    unfold collapseAux
    by_cases ha : p a = true
    · rw [if_pos ha]
      have har : a = r := h1 a (List.mem_cons_self a as) ha
      have hhead : ∀ d, as.head? = some d → p d = false := by
        intro d hd
        have := (List.chain'_cons'.mp h2).1 d hd
        by_cases hpd : p d = true
        · exact absurd ⟨ha, hpd⟩ this
        · simpa using hpd
      rw [collapseAux_true_of_head p r as hhead,
        ih (fun c hc => h1 c (List.mem_cons_of_mem a hc)) (List.chain'_cons'.mp h2).2, har]
      simp
    · rw [if_neg ha]
      rw [ih (fun c hc => h1 c (List.mem_cons_of_mem a hc)) (List.chain'_cons'.mp h2).2]

/-- Collapsing is the identity when no character is a run character. -/
theorem collapseAux_all_not (p : Char → Bool) (r : Char) :
    ∀ (b : Bool) (l : Str), (∀ c ∈ l, p c = false) → collapseAux p r b l = l := by
  intro b l
  induction l generalizing b with
  | nil => intro _; rfl
  | cons a as ih =>
    intro h
    unfold collapseAux
    rw [if_neg (by simp [h a (List.mem_cons_self a as)])]
    rw [ih false (fun c hc => h c (List.mem_cons_of_mem a hc))]

/-- The head surviving `dropWhile` fails the predicate. -/
theorem dropWhile_head_not {α : Type} (p : α → Bool) :
    ∀ (l : List α) (d : α), (l.dropWhile p).head? = some d → p d = false := by
  intro l
  induction l with
  | nil => intro d hd; cases hd
  | cons a as ih =>
    intro d hd
    rw [List.dropWhile_cons] at hd
    by_cases ha : p a = true
    · rw [if_pos ha] at hd
      exact ih d hd
    · rw [if_neg ha] at hd
      simp only [List.head?_cons, Option.some.injEq] at hd
      rw [← hd]
      simpa using ha

/-- `dropWhile` is the identity when the head fails the predicate. -/
theorem dropWhile_eq_self_of_head {α : Type} (p : α → Bool) (l : List α)
    (h : ∀ d, l.head? = some d → p d = false) : l.dropWhile p = l := by
  cases l with
  | nil => rfl
  | cons a as =>
    rw [List.dropWhile_cons, if_neg (by simp [h a rfl])]

/-- `pyStrip` output is a prefix of the left-trimmed list. -/
theorem pyStrip_prefix_dropWhile (l : Str) :
    pyStrip l <+: l.dropWhile isWsChar := by
  unfold pyStrip
  have h := List.dropWhile_suffix (l := (l.dropWhile isWsChar).reverse) isWsChar
  have := List.reverse_prefix.mpr h
  simpa using this

/-- The head of a stripped list is not whitespace. -/
theorem pyStrip_head (l : Str) (d : Char)
    (hd : (pyStrip l).head? = some d) : isWsChar d = false := by
  obtain ⟨t, ht⟩ := pyStrip_prefix_dropWhile l
  cases hp : pyStrip l with
  | nil => rw [hp] at hd; cases hd
  | cons a u =>
    rw [hp] at hd
    simp only [List.head?_cons, Option.some.injEq] at hd
    rw [hp] at ht
    have : (l.dropWhile isWsChar).head? = some a := by
      rw [← ht]; rfl
    rw [← hd]
    exact dropWhile_head_not isWsChar l a this

/-- The last character of a stripped list is not whitespace. -/
theorem pyStrip_getLast (l : Str) (d : Char)
    (hd : (pyStrip l).getLast? = some d) : isWsChar d = false := by
  have hrev : (pyStrip l).reverse = ((l.dropWhile isWsChar).reverse).dropWhile isWsChar := by
    unfold pyStrip
    rw [List.reverse_reverse]
  rw [← List.head?_reverse, hrev] at hd
  exact dropWhile_head_not isWsChar _ d hd

/-- Stripping is idempotent. -/
theorem pyStrip_idem (l : Str) : pyStrip (pyStrip l) = pyStrip l := by
  have h1 : (pyStrip l).dropWhile isWsChar = pyStrip l :=
    dropWhile_eq_self_of_head _ _ (pyStrip_head l)
  show ((((pyStrip l).dropWhile isWsChar).reverse.dropWhile isWsChar)).reverse = pyStrip l
  rw [h1]
  have h2 : ((pyStrip l).reverse).dropWhile isWsChar = (pyStrip l).reverse := by
    apply dropWhile_eq_self_of_head
    intro d hd
    rw [List.head?_reverse] at hd
    exact pyStrip_getLast l d hd
  rw [h2, List.reverse_reverse]

/-- Strip preserves membership. -/
theorem pyStrip_subset (l : Str) (c : Char) (hc : c ∈ pyStrip l) : c ∈ l := by
  unfold pyStrip at hc
  rw [List.mem_reverse] at hc
  have hc2 := (List.dropWhile_sublist isWsChar).subset hc
  rw [List.mem_reverse] at hc2
  exact (List.dropWhile_sublist isWsChar).subset hc2

/-- Strip preserves the no-adjacent-run-characters chain. -/
theorem pyStrip_chain (l : Str)
    (h : List.Chain' (fun a c => ¬(isWsChar a = true ∧ isWsChar c = true)) l) :
    List.Chain' (fun a c => ¬(isWsChar a = true ∧ isWsChar c = true)) (pyStrip l) := by
  have hsymm : ∀ (x : Str),
      List.Chain' (fun a c => ¬(isWsChar a = true ∧ isWsChar c = true)) x →
      List.Chain' (fun a c => ¬(isWsChar a = true ∧ isWsChar c = true)) x.reverse := by
    intro x hx
    rw [List.chain'_reverse]
    exact hx.imp (fun a c hac => by
      intro hcon
      exact hac ⟨hcon.2, hcon.1⟩)
  unfold pyStrip
  apply hsymm
  apply List.Chain'.suffix _ (List.dropWhile_suffix isWsChar)
  apply hsymm
  exact List.Chain'.suffix h (List.dropWhile_suffix isWsChar)

/-- Pointwise-identity maps are the identity. -/
theorem map_eq_self {α : Type} (f : α → α) :
    ∀ (l : List α), (∀ a ∈ l, f a = a) → l.map f = l := by
  intro l
  induction l with
  | nil => intro _; rfl
  | cons a as ih =>
    intro h
    rw [List.map_cons, h a (List.mem_cons_self a as),
      ih (fun c hc => h c (List.mem_cons_of_mem a hc))]

/-- Every character of a cleaned name is in the keep class and is not a
digit. -/
theorem cleanName_chars (s : Str) :
    ∀ c ∈ cleanName s, isNameKeep c = true ∧ isAsciiDigit c = false := by
  intro c hc
  have hc1 : c ∈ collapseRuns isWsChar ' '
      (((collapseRuns isAsciiDigit ' ' (pyStrip s)).map
        (fun c => if isNameKeep c then c else ' '))) := pyStrip_subset _ c hc
  rcases collapseAux_mem isWsChar ' ' false _ c hc1 with h | ⟨h1, _⟩
  · subst h; exact ⟨by decide, by decide⟩
  · obtain ⟨a, ha, hfa⟩ := List.mem_map.mp h1
    by_cases hk : isNameKeep a = true
    · rw [if_pos hk] at hfa
      subst hfa
      refine ⟨hk, ?_⟩
      rcases collapseAux_mem isAsciiDigit ' ' false _ a ha with h | ⟨_, hd⟩
      · subst h; decide
      · exact hd
    · rw [if_neg hk] at hfa
      subst hfa
      exact ⟨by decide, by decide⟩

/-- Every whitespace character of a cleaned name is a plain space. -/
theorem cleanName_ws_space (s : Str) :
    ∀ c ∈ cleanName s, isWsChar c = true → c = ' ' := by
  intro c hc hw
  have hc1 : c ∈ collapseRuns isWsChar ' '
      (((collapseRuns isAsciiDigit ' ' (pyStrip s)).map
        (fun c => if isNameKeep c then c else ' '))) := pyStrip_subset _ c hc
  rcases collapseAux_mem isWsChar ' ' false _ c hc1 with h | ⟨_, h2⟩
  · exact h
  · rw [hw] at h2; cases h2

/-- A cleaned name has no two adjacent whitespace characters. -/
theorem cleanName_chain (s : Str) :
    List.Chain' (fun a c => ¬(isWsChar a = true ∧ isWsChar c = true)) (cleanName s) :=
  pyStrip_chain _ (collapseAux_chain isWsChar ' ' false _)

/-- `_clean_name` is idempotent. -/
theorem cleanName_idem (s : Str) : cleanName (cleanName s) = cleanName s := by
  have h0 : pyStrip (cleanName s) = cleanName s := by
    show pyStrip (pyStrip (collapseRuns isWsChar ' '
      (((collapseRuns isAsciiDigit ' ' (pyStrip s)).map
        (fun c => if isNameKeep c then c else ' '))))) = _
    exact pyStrip_idem _
  show pyStrip (collapseRuns isWsChar ' '
      (((collapseRuns isAsciiDigit ' ' (pyStrip (cleanName s))).map
        (fun c => if isNameKeep c then c else ' ')))) = cleanName s
  rw [h0]
  have h1 : collapseRuns isAsciiDigit ' ' (cleanName s) = cleanName s :=
    collapseAux_all_not _ _ false _ (fun c hc => (cleanName_chars s c hc).2)
  rw [h1]
  have h2 : (cleanName s).map (fun c => if isNameKeep c then c else ' ') = cleanName s :=
    map_eq_self _ _ (fun a ha => if_pos (cleanName_chars s a ha).1)
  rw [h2]
  have h3 : collapseRuns isWsChar ' ' (cleanName s) = cleanName s :=
    collapseAux_eq_self isWsChar ' ' _ (cleanName_ws_space s) (cleanName_chain s)
  rw [h3, h0]

/-- **C9** (counterexample): `_clean_name` replaces the hyphen of
`"JEAN-PIERRE"` by a space — hyphens present in the input are *not*
preserved, contrary to the claim. -/
theorem c9_counterexample :
    cleanName ("JEAN-PIERRE".data) = ("JEAN PIERRE".data) ∧
    '-' ∈ ("JEAN-PIERRE".data) ∧
    ¬ ('-' ∈ cleanName ("JEAN-PIERRE".data)) := by
  refine ⟨by decide, by decide, by decide⟩

/-- **C9** (amended): `_clean_name` strips digits, removes every
character that is not a letter (including accented Latin letters),
whitespace or apostrophe — the hyphen is **not** kept: it is replaced by
a space like any other removed character — collapses whitespace runs to
a single space, and trims; it is idempotent and total (empty input
yields empty output; every output character is a kept character, never a
digit, never a hyphen; whitespace in the output is a single space
between non-space characters, with none at either end). -/
theorem c9_theorem :
    (cleanName [] = []) ∧
    (∀ s : Str, cleanName (cleanName s) = cleanName s) ∧
    (∀ s : Str, ∀ c ∈ cleanName s, isAsciiDigit c = false) ∧
    (∀ s : Str, ∀ c ∈ cleanName s, isNameKeep c = true) ∧
    (∀ s : Str, ∀ c ∈ cleanName s, ¬(c = '-')) ∧
    (∀ s : Str, ∀ c ∈ cleanName s, isWsChar c = true → c = ' ') ∧
    (∀ s : Str,
      List.Chain' (fun a c => ¬(isWsChar a = true ∧ isWsChar c = true)) (cleanName s)) ∧
    (∀ (s : Str) (d : Char), (cleanName s).head? = some d → isWsChar d = false) ∧
    (∀ (s : Str) (d : Char), (cleanName s).getLast? = some d → isWsChar d = false) := by
  refine ⟨by decide, cleanName_idem, fun s c hc => (cleanName_chars s c hc).2,
    fun s c hc => (cleanName_chars s c hc).1, ?_, cleanName_ws_space, cleanName_chain,
    ?_, ?_⟩
  · intro s c hc h
    have := (cleanName_chars s c hc).1
    rw [h] at this
    exact absurd this (by decide)
  · intro s d hd
    exact pyStrip_head _ d hd
  · intro s d hd
    exact pyStrip_getLast _ d hd

/-- Witness for C9 at a concrete messy input: idempotence holds, a kept
letter is reported keepable and non-digit, and the trimmed head is not
whitespace. -/
theorem c9_witness :
    cleanName (cleanName (" AB-  12cd ".data)) = cleanName (" AB-  12cd ".data) ∧
    isAsciiDigit 'A' = false ∧
    isNameKeep 'A' = true ∧
    ¬ (('A' : Char) = '-') ∧
    isWsChar 'A' = false := by
  refine ⟨c9_theorem.2.1 (" AB-  12cd ".data),
    c9_theorem.2.2.1 (" AB-  12cd ".data) 'A' (by decide),
    c9_theorem.2.2.2.1 (" AB-  12cd ".data) 'A' (by decide),
    c9_theorem.2.2.2.2.1 (" AB-  12cd ".data) 'A' (by decide),
    c9_theorem.2.2.2.2.2.2.2.1 (" AB-  12cd ".data) 'A' (by decide)⟩

end SAV
